import Mathlib

/-
Verification of the settlement state machine of
`src/contracts/SolarEnergyTradingFHE.sol`.

The contract storage is embedded as a Lean structure; Solidity mappings
become total functions with the mapping's default value for absent keys.
Opaque `euint32` ciphertext handles submitted by clients are modelled as
natural numbers; the per-seller encrypted accumulator is modelled as
`Option Nat` where `none` is an uninitialized handle (the mapping default,
`FHE.isInitialized = false`) and `some v` an initialized ciphertext of the
32-bit value `v`; homomorphic addition wraps modulo 2^32.

Each external entry point becomes a case of a step function returning
`Except Err State`; a `require` failure or revert is an `error` and, by EVM
transaction semantics, leaves the state unchanged.  The external decryption
oracle issues request tokens from a fresh counter carried in the state; the
callback's `FHE.checkSignatures` verification of the opaque proof bytes is
abstracted to its verdict, carried as a boolean on the callback operation,
and the decoded cleartext payload is carried as the list of strings it
decodes to (a payload that does not decode to at least four strings makes
the callback revert, modelled by the `DecodeFailure` error).
-/

namespace SolarTrading

/-- struct EncryptedTransaction of the contract; euint32 handles are opaque
naturals. -/
structure EncryptedTransaction where
  id : Nat
  encryptedSellerId : Nat
  encryptedBuyerId : Nat
  encryptedEnergyAmount : Nat
  encryptedPrice : Nat
  timestamp : Nat
deriving Repr, DecidableEq

/-- struct DecryptedTransaction of the contract: the cleartext projection of
a record. -/
structure DecryptedTransaction where
  sellerId : String
  buyerId : String
  energyAmount : String
  price : String
  isSettled : Bool
deriving Repr, DecidableEq

/-- Default value of the `encryptedTransactions` mapping. -/
def emptyEncrypted : EncryptedTransaction := ⟨0, 0, 0, 0, 0, 0⟩

/-- Default value of the `decryptedTransactions` mapping: all fields empty,
not settled.  This is also exactly what `submitEncryptedTransaction` stores
as the fresh projection. -/
def emptyDecrypted : DecryptedTransaction := ⟨"", "", "", "", false⟩

/-- Pointwise update of a mapping, the effect of a Solidity storage write
`m[k] = v`. -/
def upd {κ α : Type} [DecidableEq κ] (m : κ → α) (k : κ) (v : α) : κ → α :=
  fun x => if x = k then v else m x

/-- Contract storage, plus the decryption oracle's token counter
(`nextRequestId`): the oracle hands out a fresh opaque token for every
accepted request. -/
structure State where
  transactionCount : Nat
  encryptedTransactions : Nat → EncryptedTransaction
  decryptedTransactions : Nat → DecryptedTransaction
  encryptedEnergyBySeller : String → Option Nat
  sellerList : List String
  requestToTransactionId : Nat → Nat
  nextRequestId : Nat

/-- Deployment state: zero record count, every mapping at its default. -/
def initialState : State :=
  { transactionCount := 0
    encryptedTransactions := fun _ => emptyEncrypted
    decryptedTransactions := fun _ => emptyDecrypted
    encryptedEnergyBySeller := fun _ => none
    sellerList := []
    requestToTransactionId := fun _ => 0
    nextRequestId := 0 }

/-- Revert reasons of the contract: the two `require` messages, the
`FHE.checkSignatures` failure, and the revert on a payload that does not
decode to four strings. -/
inductive Err where
  | AlreadySettled
  | InvalidRequest
  | ProofInvalid
  | DecodeFailure
deriving Repr, DecidableEq

/-- External invocations of the contract.  `callback` carries the decoded
cleartext payload and the verdict of the proof verification. -/
inductive Op where
  | submit (sid bid amount price ts : Nat)
  | requestDecryption (txId : Nat)
  | callback (reqId : Nat) (results : List String) (proofValid : Bool)
deriving Repr, DecidableEq

/-- FHE.asEuint32: a trivial encryption of a 32-bit constant. -/
def fheAsEuint32 (n : Nat) : Option Nat := some (n % 2 ^ 32)

/-- FHE.add on euint32: homomorphic addition, wrapping modulo 2^32. -/
def fheAdd (a b : Option Nat) : Option Nat :=
  match a, b with
  | some x, some y => some ((x + y) % 2 ^ 32)
  | _, _ => none

/-- FHE.isInitialized: whether a handle is initialized (a mapping default is
not). -/
def fheIsInitialized (a : Option Nat) : Bool := a.isSome

/-- Storage writes of `submitEncryptedTransaction` (lines 49-67): bump the
counter, store the encrypted record and the fresh empty projection under the
new identifier. -/
def submitApply (s : State) (sid bid amount price ts : Nat) : State :=
  let newId := s.transactionCount + 1
  { s with
    transactionCount := newId
    encryptedTransactions :=
      upd s.encryptedTransactions newId ⟨newId, sid, bid, amount, price, ts⟩
    decryptedTransactions := upd s.decryptedTransactions newId emptyDecrypted }

/-- Storage write of `requestTransactionDecryption` (line 84): register the
fresh oracle token against the requested record identifier. -/
def registerRequest (s : State) (txId : Nat) : State :=
  { s with
    requestToTransactionId := upd s.requestToTransactionId s.nextRequestId txId
    nextRequestId := s.nextRequestId + 1 }

/-- The seller identifier decoded from a callback payload: results[0]. -/
def seller0 (results : List String) : String := results.getD 0 ""

/-- Storage writes of the success path of `decryptTransaction` (lines
104-120): populate the projection, mark it settled, lazily create the
seller's accumulator at encrypted zero (appending the seller to the list),
and homomorphically add an encrypted one. -/
def settleApply (s : State) (reqId : Nat) (results : List String) : State :=
  let txId := s.requestToTransactionId reqId
  let sellerId := seller0 results
  let newProj : DecryptedTransaction :=
    ⟨sellerId, results.getD 1 "", results.getD 2 "", results.getD 3 "", true⟩
  let acc := s.encryptedEnergyBySeller sellerId
  let accStart : Option Nat := if fheIsInitialized acc then acc else fheAsEuint32 0
  let list1 : List String :=
    if fheIsInitialized acc then s.sellerList else s.sellerList ++ [sellerId]
  { s with
    decryptedTransactions := upd s.decryptedTransactions txId newProj
    encryptedEnergyBySeller :=
      upd s.encryptedEnergyBySeller sellerId (fheAdd accStart (fheAsEuint32 1))
    sellerList := list1 }

/-- One external invocation, translated from the contract.  `submit` is
`submitEncryptedTransaction` (no error conditions), `requestDecryption` is
`requestTransactionDecryption` (line 75: require not settled — existence of
the record is not checked), `callback` is `decryptTransaction` (line 96:
require nonzero resolved id; line 100: require not settled; line 102:
signature check; line 104-109: payload decode and indexing). -/
def step (s : State) : Op → Except Err State
  | .submit sid bid amount price ts => .ok (submitApply s sid bid amount price ts)
  | .requestDecryption txId =>
    if (s.decryptedTransactions txId).isSettled then .error .AlreadySettled
    else .ok (registerRequest s txId)
  | .callback reqId results proofValid =>
    if s.requestToTransactionId reqId = 0 then .error .InvalidRequest
    else if (s.decryptedTransactions (s.requestToTransactionId reqId)).isSettled then
      .error .AlreadySettled
    else if proofValid = false then .error .ProofInvalid
    else if results.length < 4 then .error .DecodeFailure
    else .ok (settleApply s reqId results)

/-- EVM transaction semantics: a reverted invocation leaves the state
unchanged. -/
def applyOp (s : State) (op : Op) : State :=
  match step s op with
  | .ok s1 => s1
  | .error _ => s

/-- Execute a sequence of invocations. -/
def runOps (s : State) : List Op → State
  | [] => s
  | op :: t => runOps (applyOp s op) t

/-- View function getDecryptedTransaction: returns the five fields of the
stored projection. -/
def getDecryptedTransaction (s : State) (txId : Nat) :
    String × String × String × String × Bool :=
  let t := s.decryptedTransactions txId
  (t.sellerId, t.buyerId, t.energyAmount, t.price, t.isSettled)

/-- View function getEncryptedEnergyBySeller. -/
def getEncryptedEnergyBySeller (s : State) (seller : String) : Option Nat :=
  s.encryptedEnergyBySeller seller

/-- Ghost history: the (recordId, sellerId) of every successful callback in a
trace. -/
def settleEvents (s : State) : List Op → List (Nat × String)
  | [] => []
  | op :: t =>
    (match op with
     | .callback reqId results _ =>
       if (step s op).isOk then
         [(s.requestToTransactionId reqId, seller0 results)]
       else []
     | _ => []) ++ settleEvents (applyOp s op) t

/-- Record identifiers settled by successful callbacks in a trace. -/
def settledIds (s : State) (ops : List Op) : List Nat :=
  (settleEvents s ops).map Prod.fst

/-- Seller identifiers written into settled projections in a trace. -/
def settledSellers (s : State) (ops : List Op) : List String :=
  (settleEvents s ops).map Prod.snd

/-- Ghost history: the (token, recordId) pairs registered in the
pending-request map by successful settlement requests in a trace. -/
def regEvents (s : State) : List Op → List (Nat × Nat)
  | [] => []
  | op :: t =>
    (match op with
     | .requestDecryption txId =>
       if (step s op).isOk then [(s.nextRequestId, txId)] else []
     | _ => []) ++ regEvents (applyOp s op) t

/-- Number of submit invocations in a trace. -/
def numSubmits : List Op → Nat
  | [] => 0
  | .submit _ _ _ _ _ :: t => numSubmits t + 1
  | _ :: t => numSubmits t

/-- Record identifiers assigned by the submit invocations of a trace, in call
order. -/
def assignedIds (s : State) : List Op → List Nat
  | [] => []
  | op :: t =>
    (match op with
     | .submit _ _ _ _ _ => [s.transactionCount + 1]
     | _ => []) ++ assignedIds (applyOp s op) t

/-- Number of successful callbacks in a trace that settle the given record
while it is an assigned identifier (at most `transactionCount`). -/
def succCbForAssigned (s : State) (id : Nat) : List Op → Nat
  | [] => 0
  | op :: t =>
    (match op with
     | .callback reqId _ _ =>
       if s.requestToTransactionId reqId = id ∧ id ≤ s.transactionCount ∧
           (step s op).isOk = true then 1 else 0
     | _ => 0) + succCbForAssigned (applyOp s op) id t

theorem applyOp_submit (s : State) (sid bid amount price ts : Nat) :
    applyOp s (.submit sid bid amount price ts) =
      submitApply s sid bid amount price ts := rfl

theorem applyOp_requestDecryption (s : State) (txId : Nat) :
    applyOp s (.requestDecryption txId) =
      if (s.decryptedTransactions txId).isSettled then s
      else registerRequest s txId := by
  by_cases h : (s.decryptedTransactions txId).isSettled <;> simp [applyOp, step, h]

theorem applyOp_callback (s : State) (reqId : Nat) (results : List String)
    (pv : Bool) :
    applyOp s (.callback reqId results pv) =
      if s.requestToTransactionId reqId = 0 then s
      else if (s.decryptedTransactions (s.requestToTransactionId reqId)).isSettled
        then s
      else if pv = false then s
      else if results.length < 4 then s
      else settleApply s reqId results := by
  by_cases h1 : s.requestToTransactionId reqId = 0
  · simp [applyOp, step, h1]
  · by_cases h2 :
        (s.decryptedTransactions (s.requestToTransactionId reqId)).isSettled
    · simp [applyOp, step, h1, h2]
    · by_cases h3 : pv = false
      · simp [applyOp, step, h1, h2, h3]
      · by_cases h4 : results.length < 4 <;> simp [applyOp, step, h1, h2, h3, h4]

theorem stepReq_isOk (s : State) (txId : Nat) :
    (step s (.requestDecryption txId)).isOk = true ↔
      (s.decryptedTransactions txId).isSettled = false := by
  by_cases h : (s.decryptedTransactions txId).isSettled <;>
    simp [step, h, Except.isOk, Except.toBool]

theorem stepCb_isOk (s : State) (reqId : Nat) (results : List String) (pv : Bool) :
    (step s (.callback reqId results pv)).isOk = true ↔
      (s.requestToTransactionId reqId ≠ 0 ∧
        (s.decryptedTransactions (s.requestToTransactionId reqId)).isSettled = false ∧
        pv = true ∧ 4 ≤ results.length) := by
  by_cases h1 : s.requestToTransactionId reqId = 0
  · simp [step, h1, Except.isOk, Except.toBool]
  · by_cases h2 :
        (s.decryptedTransactions (s.requestToTransactionId reqId)).isSettled
    · simp [step, h1, h2, Except.isOk, Except.toBool]
    · by_cases h3 : pv = false
      · simp [step, h1, h2, h3, Except.isOk, Except.toBool]
      · by_cases h4 : results.length < 4 <;>
          simp [step, h1, h2, h3, h4, Except.isOk, Except.toBool]
        all_goals omega

theorem count_mono_applyOp (s : State) (op : Op) :
    s.transactionCount ≤ (applyOp s op).transactionCount := by
  cases op with
  | submit sid bid amount price ts =>
    simp [applyOp_submit, submitApply]
  | requestDecryption txId =>
    rw [applyOp_requestDecryption]
    split <;> simp [registerRequest]
  | callback reqId results pv =>
    rw [applyOp_callback]
    repeat' split
    all_goals simp [settleApply]

theorem count_mono_runOps (ops : List Op) (s : State) :
    s.transactionCount ≤ (runOps s ops).transactionCount := by
  induction ops generalizing s with
  | nil => simp [runOps]
  | cons op t ih =>
    have h1 := count_mono_applyOp s op
    have h2 := ih (applyOp s op)
    simpa [runOps] using le_trans h1 h2

theorem settled_mono_applyOp (s : State) (op : Op) (id : Nat)
    (hid : id ≤ s.transactionCount)
    (hset : (s.decryptedTransactions id).isSettled = true) :
    ((applyOp s op).decryptedTransactions id).isSettled = true := by
  cases op with
  | submit sid bid amount price ts =>
    have hne : id ≠ s.transactionCount + 1 := by omega
    simp [applyOp_submit, submitApply, upd, hne, hset]
  | requestDecryption txId =>
    rw [applyOp_requestDecryption]
    split <;> simp [registerRequest, hset]
  | callback reqId results pv =>
    rw [applyOp_callback]
    repeat' split
    all_goals simp [settleApply, upd, hset]
    split <;> simp [hset]

theorem stepCb_ok_inv (s : State) (reqId : Nat) (results : List String)
    (pv : Bool) (s1 : State)
    (h : step s (.callback reqId results pv) = .ok s1) :
    s1 = settleApply s reqId results ∧
      s.requestToTransactionId reqId ≠ 0 ∧
      (s.decryptedTransactions (s.requestToTransactionId reqId)).isSettled = false ∧
      pv = true ∧ 4 ≤ results.length := by
  by_cases h1 : s.requestToTransactionId reqId = 0
  · simp [step, h1] at h
  · by_cases h2 :
        (s.decryptedTransactions (s.requestToTransactionId reqId)).isSettled
    · simp [step, h1, h2] at h
    · by_cases h3 : pv = false
      · simp [step, h1, h2, h3] at h
      · by_cases h4 : results.length < 4
        · simp [step, h1, h2, h3, h4] at h
        · simp [step, h1, h2, h3, h4] at h
          refine ⟨h.symm, h1, by simpa using h2, by simpa using h3, by omega⟩

theorem settled_after_settleApply (s : State) (reqId : Nat)
    (results : List String) :
    ((settleApply s reqId results).decryptedTransactions
        (s.requestToTransactionId reqId)).isSettled = true := by
  simp [settleApply, upd]

theorem proj_preserved (ops : List Op) (s : State) (id : Nat)
    (hgt : (runOps s ops).transactionCount < id)
    (hnot : id ∉ settledIds s ops) :
    (runOps s ops).decryptedTransactions id = s.decryptedTransactions id := by
  induction ops generalizing s with
  | nil => simp [runOps]
  | cons op t ih =>
    have hrun : runOps s (op :: t) = runOps (applyOp s op) t := rfl
    rw [hrun] at hgt ⊢
    cases op with
    | submit sid bid amount price ts =>
      have hcnt : (applyOp s (.submit sid bid amount price ts)).transactionCount
          = s.transactionCount + 1 := by
        simp [applyOp_submit, submitApply]
      have hle := count_mono_runOps t (applyOp s (.submit sid bid amount price ts))
      have hne : id ≠ s.transactionCount + 1 := by omega
      have htail : id ∉ settledIds (applyOp s (.submit sid bid amount price ts)) t := by
        simpa [settledIds, settleEvents] using hnot
      rw [ih _ hgt htail]
      simp [applyOp_submit, submitApply, upd, hne]
    | requestDecryption txId =>
      have htail : id ∉ settledIds (applyOp s (.requestDecryption txId)) t := by
        simpa [settledIds, settleEvents] using hnot
      rw [ih _ hgt htail]
      rw [applyOp_requestDecryption]
      split <;> simp [registerRequest]
    | callback reqId results pv =>
      by_cases hok : (step s (.callback reqId results pv)).isOk = true
      · have hcons : settledIds s (.callback reqId results pv :: t) =
            s.requestToTransactionId reqId ::
              settledIds (applyOp s (.callback reqId results pv)) t := by
          simp [settledIds, settleEvents, hok]
        have hsplit : id ≠ s.requestToTransactionId reqId ∧
            id ∉ settledIds (applyOp s (.callback reqId results pv)) t := by
          constructor
          · intro hcontra
            apply hnot
            rw [hcons, hcontra]
            exact List.mem_cons_self _ _
          · intro hcontra
            apply hnot
            rw [hcons]
            exact List.mem_cons_of_mem _ hcontra
        rw [ih _ hgt hsplit.2]
        obtain ⟨hne0, hns, hpv, hlen⟩ := (stepCb_isOk s reqId results pv).mp hok
        rw [applyOp_callback]
        simp only [hne0, hns, hpv, if_false, if_neg (by omega : ¬results.length < 4)]
        simp [settleApply, upd, hsplit.1]
      · have htail : id ∉ settledIds (applyOp s (.callback reqId results pv)) t := by
          simp only [settledIds, settleEvents] at hnot
          simp only [hok] at hnot
          simpa [settledIds] using hnot
        rw [ih _ hgt htail]
        have : applyOp s (.callback reqId results pv) = s := by
          unfold applyOp
          cases hstep : step s (.callback reqId results pv) with
          | ok s1 => rw [hstep] at hok; simp [Except.isOk, Except.toBool] at hok
          | error e => rfl
        rw [this]

theorem accList_inv_settleApply (s : State) (reqId : Nat) (results : List String)
    (hinv : ∀ k, (s.encryptedEnergyBySeller k).isSome = true ↔ k ∈ s.sellerList) :
    ∀ k, ((settleApply s reqId results).encryptedEnergyBySeller k).isSome = true ↔
      k ∈ (settleApply s reqId results).sellerList := by
  intro k
  by_cases hk : k = seller0 results
  · subst hk
    by_cases hi : (s.encryptedEnergyBySeller (seller0 results)).isSome = true
    · obtain ⟨v, hv⟩ := Option.isSome_iff_exists.mp hi
      have hmem : seller0 results ∈ s.sellerList := (hinv _).mp hi
      simp [settleApply, upd, fheIsInitialized, hv, fheAdd, fheAsEuint32, hmem]
    · have hv : s.encryptedEnergyBySeller (seller0 results) = none := by
        cases hcase : s.encryptedEnergyBySeller (seller0 results) with
        | none => rfl
        | some v => rw [hcase] at hi; simp at hi
      simp [settleApply, upd, fheIsInitialized, hv, fheAdd, fheAsEuint32]
  · by_cases hi : fheIsInitialized (s.encryptedEnergyBySeller (seller0 results))
        = true
    · simpa [settleApply, upd, hk, hi] using hinv k
    · simp only [fheIsInitialized, Bool.not_eq_true] at hi
      simp [settleApply, upd, fheIsInitialized, hk, hi, List.mem_append, hinv k]

theorem accList_inv_applyOp (s : State) (op : Op)
    (hinv : ∀ k, (s.encryptedEnergyBySeller k).isSome = true ↔ k ∈ s.sellerList) :
    ∀ k, ((applyOp s op).encryptedEnergyBySeller k).isSome = true ↔
      k ∈ (applyOp s op).sellerList := by
  cases op with
  | submit sid bid amount price ts => simpa [applyOp_submit, submitApply] using hinv
  | requestDecryption txId =>
    rw [applyOp_requestDecryption]
    split
    · exact hinv
    · simpa [registerRequest] using hinv
  | callback reqId results pv =>
    rw [applyOp_callback]
    repeat' split
    · exact hinv
    · exact hinv
    · exact hinv
    · exact hinv
    · exact accList_inv_settleApply s reqId results hinv

theorem accList_inv_runOps (ops : List Op) (s : State)
    (hinv : ∀ k, (s.encryptedEnergyBySeller k).isSome = true ↔ k ∈ s.sellerList) :
    ∀ k, ((runOps s ops).encryptedEnergyBySeller k).isSome = true ↔
      k ∈ (runOps s ops).sellerList := by
  induction ops generalizing s with
  | nil => exact hinv
  | cons op t ih => exact ih (applyOp s op) (accList_inv_applyOp s op hinv)

theorem sellerList_hist (ops : List Op) (s : State)
    (hinv : ∀ k, (s.encryptedEnergyBySeller k).isSome = true ↔ k ∈ s.sellerList) :
    ∀ k, k ∈ (runOps s ops).sellerList ↔
      (k ∈ s.sellerList ∨ k ∈ settledSellers s ops) := by
  induction ops generalizing s with
  | nil => intro k; simp [runOps, settledSellers, settleEvents]
  | cons op t ih =>
    intro k
    have htail := ih (applyOp s op) (accList_inv_applyOp s op hinv) k
    have hgoal : (runOps s (op :: t)).sellerList =
        (runOps (applyOp s op) t).sellerList := rfl
    rw [hgoal, htail]
    cases op with
    | submit sid bid amount price ts =>
      simp [applyOp_submit, submitApply, settledSellers, settleEvents]
    | requestDecryption txId =>
      have hlist : (applyOp s (.requestDecryption txId)).sellerList = s.sellerList := by
        rw [applyOp_requestDecryption]; split <;> simp [registerRequest]
      rw [hlist]
      have hev : settledSellers s (.requestDecryption txId :: t) =
          settledSellers (applyOp s (.requestDecryption txId)) t := by
        simp [settledSellers, settleEvents]
      rw [hev]
    | callback reqId results pv =>
      by_cases hok : (step s (.callback reqId results pv)).isOk = true
      · have hev : settledSellers s (.callback reqId results pv :: t) =
            seller0 results ::
              settledSellers (applyOp s (.callback reqId results pv)) t := by
          simp [settledSellers, settleEvents, hok]
        obtain ⟨hne0, hns, hpv, hlen⟩ := (stepCb_isOk s reqId results pv).mp hok
        have happ : applyOp s (.callback reqId results pv) =
            settleApply s reqId results := by
          rw [applyOp_callback]
          simp [hne0, hns, hpv, if_neg (by omega : ¬results.length < 4)]
        rw [hev, happ]
        by_cases hi : fheIsInitialized
            (s.encryptedEnergyBySeller (seller0 results)) = true
        · have hlist : (settleApply s reqId results).sellerList = s.sellerList := by
            simp [settleApply, hi]
          have hsel : seller0 results ∈ s.sellerList :=
            (hinv _).mp (by simpa [fheIsInitialized] using hi)
          rw [hlist]
          constructor
          · rintro (h | h)
            · exact Or.inl h
            · exact Or.inr (List.mem_cons_of_mem _ h)
          · rintro (h | h)
            · exact Or.inl h
            · rcases List.mem_cons.mp h with h | h
              · exact Or.inl (h ▸ hsel)
              · exact Or.inr h
        · simp only [Bool.not_eq_true] at hi
          have hlist : (settleApply s reqId results).sellerList =
              s.sellerList ++ [seller0 results] := by
            simp [settleApply, hi]
          rw [hlist]
          simp only [List.mem_append, List.mem_singleton, List.mem_cons]
          tauto
      · have happ : applyOp s (.callback reqId results pv) = s := by
          unfold applyOp
          cases hstep : step s (.callback reqId results pv) with
          | ok s1 => rw [hstep] at hok; simp [Except.isOk, Except.toBool] at hok
          | error e => rfl
        have hev : settledSellers s (.callback reqId results pv :: t) =
            settledSellers (applyOp s (.callback reqId results pv)) t := by
          simp [settledSellers, settleEvents, hok]
        rw [hev, happ]

theorem applyOp_eq_of_not_isOk (s : State) (op : Op)
    (hok : ¬(step s op).isOk = true) : applyOp s op = s := by
  unfold applyOp
  cases hstep : step s op with
  | ok s1 => rw [hstep] at hok; simp [Except.isOk, Except.toBool] at hok
  | error e => rfl

theorem applyOp_cb_of_isOk (s : State) (reqId : Nat) (results : List String)
    (pv : Bool) (hok : (step s (.callback reqId results pv)).isOk = true) :
    applyOp s (.callback reqId results pv) = settleApply s reqId results := by
  obtain ⟨hne0, hns, hpv, hlen⟩ := (stepCb_isOk s reqId results pv).mp hok
  rw [applyOp_callback]
  simp [hne0, hns, hpv, if_neg (by omega : ¬results.length < 4)]

theorem succCb_zero (ops : List Op) (s : State) (id : Nat)
    (hid : id ≤ s.transactionCount)
    (hset : (s.decryptedTransactions id).isSettled = true) :
    succCbForAssigned s id ops = 0 := by
  induction ops generalizing s with
  | nil => rfl
  | cons op t ih =>
    have htail : succCbForAssigned (applyOp s op) id t = 0 :=
      ih (applyOp s op) (le_trans hid (count_mono_applyOp s op))
        (settled_mono_applyOp s op id hid hset)
    cases op with
    | submit sid bid amount price ts => simpa [succCbForAssigned] using htail
    | requestDecryption txId => simpa [succCbForAssigned] using htail
    | callback reqId results pv =>
      have hhead : ¬(s.requestToTransactionId reqId = id ∧
          id ≤ s.transactionCount ∧
          (step s (.callback reqId results pv)).isOk = true) := by
        rintro ⟨h1, h2, h3⟩
        obtain ⟨hne0, hns, hpv, hlen⟩ := (stepCb_isOk s reqId results pv).mp h3
        rw [h1, hset] at hns
        exact absurd hns (by decide)
      simp [succCbForAssigned, hhead, htail]

theorem succCb_le_one (ops : List Op) (s : State) (id : Nat) :
    succCbForAssigned s id ops ≤ 1 := by
  induction ops generalizing s with
  | nil => simp [succCbForAssigned]
  | cons op t ih =>
    cases op with
    | submit sid bid amount price ts =>
      simpa [succCbForAssigned] using ih (applyOp s (.submit sid bid amount price ts))
    | requestDecryption txId =>
      simpa [succCbForAssigned] using ih (applyOp s (.requestDecryption txId))
    | callback reqId results pv =>
      by_cases hc : s.requestToTransactionId reqId = id ∧
          id ≤ s.transactionCount ∧
          (step s (.callback reqId results pv)).isOk = true
      · obtain ⟨h1, h2, h3⟩ := hc
        have happ := applyOp_cb_of_isOk s reqId results pv h3
        have hsettled : ((applyOp s (.callback reqId results pv)).decryptedTransactions
            id).isSettled = true := by
          rw [happ, ← h1]
          exact settled_after_settleApply s reqId results
        have hcount : (applyOp s (.callback reqId results pv)).transactionCount =
            s.transactionCount := by
          rw [happ]; simp [settleApply]
        have htail : succCbForAssigned (applyOp s (.callback reqId results pv)) id t
            = 0 :=
          succCb_zero t _ id (by rw [hcount]; exact h2) hsettled
        simp [succCbForAssigned, h1, h2, h3, htail]
      · have htail := ih (applyOp s (.callback reqId results pv))
        simp only [succCbForAssigned, if_neg hc]
        omega

theorem map_reg_inv (ops : List Op) (s : State) (t0 : Nat) :
    (runOps s ops).requestToTransactionId t0 = s.requestToTransactionId t0 ∨
      (t0, (runOps s ops).requestToTransactionId t0) ∈ regEvents s ops := by
  induction ops generalizing s with
  | nil => left; rfl
  | cons op t ih =>
    have hrun : runOps s (op :: t) = runOps (applyOp s op) t := rfl
    cases op with
    | submit sid bid amount price ts =>
      have hmap : (applyOp s (.submit sid bid amount price ts)).requestToTransactionId
          = s.requestToTransactionId := by
        simp [applyOp_submit, submitApply]
      rcases ih (applyOp s (.submit sid bid amount price ts)) with h | h
      · left; rw [hrun, h, hmap]
      · right; rw [hrun]; simpa [regEvents] using h
    | requestDecryption txId =>
      by_cases hok : (step s (.requestDecryption txId)).isOk = true
      · have hns := (stepReq_isOk s txId).mp hok
        have happ : applyOp s (.requestDecryption txId) = registerRequest s txId := by
          rw [applyOp_requestDecryption, if_neg (by simp [hns])]
        have hev : regEvents s (.requestDecryption txId :: t) =
            (s.nextRequestId, txId) ::
              regEvents (applyOp s (.requestDecryption txId)) t := by
          simp [regEvents, hok]
        rcases ih (applyOp s (.requestDecryption txId)) with h | h
        · by_cases ht : t0 = s.nextRequestId
          · right
            have hval : (runOps s (.requestDecryption txId :: t)).requestToTransactionId
                t0 = txId := by
              rw [hrun, h, happ]; simp [registerRequest, upd, ht]
            rw [hev, hval, ht]
            exact List.mem_cons_self _ _
          · left
            rw [hrun, h, happ]
            simp [registerRequest, upd, ht]
        · right
          rw [hev, hrun]
          exact List.mem_cons_of_mem _ h
      · have happ := applyOp_eq_of_not_isOk s (.requestDecryption txId) hok
        have hev : regEvents s (.requestDecryption txId :: t) =
            regEvents (applyOp s (.requestDecryption txId)) t := by
          simp [regEvents, hok]
        rcases ih (applyOp s (.requestDecryption txId)) with h | h
        · left; rw [hrun, h, happ]
        · right; rw [hev, hrun]; exact h
    | callback reqId results pv =>
      have hmap : (applyOp s (.callback reqId results pv)).requestToTransactionId
          = s.requestToTransactionId := by
        by_cases hok : (step s (.callback reqId results pv)).isOk = true
        · rw [applyOp_cb_of_isOk s reqId results pv hok]; simp [settleApply]
        · rw [applyOp_eq_of_not_isOk s _ hok]
      rcases ih (applyOp s (.callback reqId results pv)) with h | h
      · left; rw [hrun, h, hmap]
      · right; rw [hrun]; simpa [regEvents] using h

theorem fresh_zero_applyOp (s : State) (op : Op)
    (hfresh : ∀ t0, s.nextRequestId ≤ t0 → s.requestToTransactionId t0 = 0) :
    ∀ t0, (applyOp s op).nextRequestId ≤ t0 →
      (applyOp s op).requestToTransactionId t0 = 0 := by
  cases op with
  | submit sid bid amount price ts =>
    simpa [applyOp_submit, submitApply] using hfresh
  | requestDecryption txId =>
    rw [applyOp_requestDecryption]
    split
    · exact hfresh
    · intro t0 ht
      simp only [registerRequest] at ht ⊢
      simp only [upd]
      rw [if_neg (by omega : ¬t0 = s.nextRequestId)]
      exact hfresh t0 (by omega)
  | callback reqId results pv =>
    by_cases hok : (step s (.callback reqId results pv)).isOk = true
    · rw [applyOp_cb_of_isOk s reqId results pv hok]
      simpa [settleApply] using hfresh
    · rw [applyOp_eq_of_not_isOk s _ hok]
      exact hfresh

theorem fresh_zero_runOps (ops : List Op) (s : State)
    (hfresh : ∀ t0, s.nextRequestId ≤ t0 → s.requestToTransactionId t0 = 0) :
    ∀ t0, (runOps s ops).nextRequestId ≤ t0 →
      (runOps s ops).requestToTransactionId t0 = 0 := by
  induction ops generalizing s with
  | nil => exact hfresh
  | cons op t ih => exact ih (applyOp s op) (fresh_zero_applyOp s op hfresh)

theorem assignedIds_eq (ops : List Op) (s : State) :
    assignedIds s ops = List.range' (s.transactionCount + 1) (numSubmits ops) := by
  induction ops generalizing s with
  | nil => rfl
  | cons op t ih =>
    cases op with
    | submit sid bid amount price ts =>
      have hcount : (applyOp s (.submit sid bid amount price ts)).transactionCount
          = s.transactionCount + 1 := by
        simp [applyOp_submit, submitApply]
      simp [assignedIds, numSubmits,
        ih (applyOp s (.submit sid bid amount price ts)), hcount, List.range'_succ]
    | requestDecryption txId =>
      have hcount : (applyOp s (.requestDecryption txId)).transactionCount
          = s.transactionCount := by
        rw [applyOp_requestDecryption]; split <;> simp [registerRequest]
      simp [assignedIds, numSubmits, ih (applyOp s (.requestDecryption txId)), hcount]
    | callback reqId results pv =>
      have hcount : (applyOp s (.callback reqId results pv)).transactionCount
          = s.transactionCount := by
        by_cases hok : (step s (.callback reqId results pv)).isOk = true
        · rw [applyOp_cb_of_isOk s reqId results pv hok]; simp [settleApply]
        · rw [applyOp_eq_of_not_isOk s _ hok]
      simp [assignedIds, numSubmits, ih (applyOp s (.callback reqId results pv)),
        hcount]

/-- Sample decoded cleartext payload used in concrete traces. -/
def samplePayload : List String := ["alice", "bob", "10", "500"]

example :
    (runOps initialState
      [Op.submit 7 8 9 10 0, Op.requestDecryption 1,
       Op.callback 0 samplePayload true]).sellerList = ["alice"] := by decide

/-- C1 counterexample: the claim fails as stated.  From the deployment
state, `requestTransactionDecryption(1)` succeeds although record 1 was
never submitted (only `isSettled` is checked), a valid callback then settles
record 1's projection (`settled = true`), and a subsequent submit assigns
identifier 1 and overwrites that projection with the fresh empty one,
resetting `settled` from true back to false; after that, replaying the same
callback succeeds a second time for record 1. -/
theorem C1_counterexample :
    ((runOps initialState
        [Op.requestDecryption 1,
         Op.callback 0 samplePayload true]).decryptedTransactions 1).isSettled
      = true
    ∧ ((runOps initialState
        [Op.requestDecryption 1, Op.callback 0 samplePayload true,
         Op.submit 1 2 3 4 0]).decryptedTransactions 1).isSettled = false
    ∧ (step (runOps initialState
        [Op.requestDecryption 1, Op.callback 0 samplePayload true,
         Op.submit 1 2 3 4 0])
        (Op.callback 0 samplePayload true)).isOk = true := by
  refine ⟨by decide, by decide, by decide⟩

/-- C1 (amended): for record identifiers already assigned by submit
(`id ≤ transactionCount`), the settled flag is monotonic under every
operation (and the identifier stays assigned); a callback resolving to a
settled record fails with `AlreadySettled` (or `InvalidRequest` when its
token is unmapped); and along any trace at most one callback succeeds for a
record while it is assigned.  Identifiers not yet assigned are exempt: their
projections can be settled by a request on a nonexistent record and are
reset by the submit that later assigns them. -/
theorem C1_amended :
    (∀ s op id, id ≤ s.transactionCount →
        (s.decryptedTransactions id).isSettled = true →
        id ≤ (applyOp s op).transactionCount ∧
          ((applyOp s op).decryptedTransactions id).isSettled = true)
    ∧ (∀ s reqId results pv,
        (s.decryptedTransactions (s.requestToTransactionId reqId)).isSettled = true →
        step s (.callback reqId results pv) = .error .AlreadySettled ∨
          step s (.callback reqId results pv) = .error .InvalidRequest)
    ∧ (∀ s id ops, succCbForAssigned s id ops ≤ 1) := by
  refine ⟨?_, ?_, ?_⟩
  · intro s op id hid hset
    exact ⟨le_trans hid (count_mono_applyOp s op),
      settled_mono_applyOp s op id hid hset⟩
  · intro s reqId results pv hset
    by_cases h1 : s.requestToTransactionId reqId = 0
    · right; simp [step, h1]
    · left; simp [step, h1, hset]
  · intro s id ops
    exact succCb_le_one ops s id

/-- C1 witness: concrete instantiation of the amended theorem at a state
with record 1 submitted and settled. -/
theorem C1_witness :
    (1 ≤ (applyOp (runOps initialState
          [Op.submit 1 2 3 4 0, Op.requestDecryption 1,
           Op.callback 0 samplePayload true])
          (Op.submit 5 6 7 8 9)).transactionCount ∧
      ((applyOp (runOps initialState
          [Op.submit 1 2 3 4 0, Op.requestDecryption 1,
           Op.callback 0 samplePayload true])
          (Op.submit 5 6 7 8 9)).decryptedTransactions 1).isSettled = true)
    ∧ (step (runOps initialState
          [Op.submit 1 2 3 4 0, Op.requestDecryption 1,
           Op.callback 0 samplePayload true])
          (.callback 0 samplePayload true) = .error .AlreadySettled ∨
        step (runOps initialState
          [Op.submit 1 2 3 4 0, Op.requestDecryption 1,
           Op.callback 0 samplePayload true])
          (.callback 0 samplePayload true) = .error .InvalidRequest) :=
  ⟨C1_amended.1 _ (Op.submit 5 6 7 8 9) 1 (by decide) (by decide),
    C1_amended.2.1 _ 0 samplePayload true (by decide)⟩

/-- C2 counterexample: the claim fails as stated.  In the deployment state
no record exists (`transactionCount = 0`), yet
`requestTransactionDecryption(5)` succeeds: the contract checks only the
`isSettled` flag, never that the identifier refers to an existing record. -/
theorem C2_counterexample :
    initialState.transactionCount = 0 ∧
      (step initialState (Op.requestDecryption 5)).isOk = true := ⟨rfl, rfl⟩

/-- C2 (amended): `requestTransactionDecryption` fails with `AlreadySettled`
and changes no state exactly when the projection of the given identifier is
settled; record existence is not checked, so the call also succeeds for
never-assigned identifiers.  Every success registers a mapping from the
fresh oracle token to the requested identifier, leaves every other token's
mapping unchanged, and bumps the token counter; in every reachable state
tokens at or above the counter are unmapped, so the token handed out is
fresh. -/
theorem C2_amended :
    (∀ s txId, (s.decryptedTransactions txId).isSettled = true →
        step s (.requestDecryption txId) = .error .AlreadySettled ∧
          applyOp s (.requestDecryption txId) = s)
    ∧ (∀ s txId, (s.decryptedTransactions txId).isSettled = false →
        step s (.requestDecryption txId) = .ok (registerRequest s txId) ∧
          (registerRequest s txId).requestToTransactionId s.nextRequestId = txId ∧
          (∀ t0, t0 ≠ s.nextRequestId →
            (registerRequest s txId).requestToTransactionId t0 =
              s.requestToTransactionId t0) ∧
          (registerRequest s txId).nextRequestId = s.nextRequestId + 1)
    ∧ (∀ ops t0, (runOps initialState ops).nextRequestId ≤ t0 →
        (runOps initialState ops).requestToTransactionId t0 = 0) := by
  refine ⟨?_, ?_, ?_⟩
  · intro s txId h
    exact ⟨by simp [step, h], by simp [applyOp, step, h]⟩
  · intro s txId h
    refine ⟨by simp [step, h], by simp [registerRequest, upd], ?_, rfl⟩
    intro t0 ht
    simp [registerRequest, upd, ht]
  · intro ops t0
    exact fresh_zero_runOps ops initialState (fun _ _ => rfl) t0

/-- C2 witness: concrete instantiation of the amended theorem: a settled
record rejects the request, an unsettled one accepts it, and a token at the
oracle counter of a reachable state is unmapped. -/
theorem C2_witness :
    (step (runOps initialState
        [Op.submit 1 2 3 4 0, Op.requestDecryption 1,
         Op.callback 0 samplePayload true])
        (.requestDecryption 1) = .error .AlreadySettled ∧
      applyOp (runOps initialState
        [Op.submit 1 2 3 4 0, Op.requestDecryption 1,
         Op.callback 0 samplePayload true])
        (.requestDecryption 1) =
        runOps initialState
          [Op.submit 1 2 3 4 0, Op.requestDecryption 1,
           Op.callback 0 samplePayload true])
    ∧ step initialState (.requestDecryption 1) =
        .ok (registerRequest initialState 1)
    ∧ (runOps initialState [Op.requestDecryption 1]).requestToTransactionId 1 = 0 :=
  ⟨C2_amended.1 _ 1 (by decide),
    (C2_amended.2.1 initialState 1 (by decide)).1,
    C2_amended.2.2 [Op.requestDecryption 1] 1 (by decide)⟩

/-- C3: a callback whose token has no mapping in the pending-request table
(the mapping holds the default 0) fails with `InvalidRequest` and leaves the
entire state unchanged. -/
theorem C3_invalid_token :
    ∀ s reqId results pv, s.requestToTransactionId reqId = 0 →
      step s (.callback reqId results pv) = .error .InvalidRequest ∧
        applyOp s (.callback reqId results pv) = s := by
  intro s reqId results pv h
  exact ⟨by simp [step, h], by simp [applyOp, step, h]⟩

/-- C3 witness: a never-issued token is rejected in the deployment state. -/
theorem C3_witness :
    step initialState (.callback 3 samplePayload true) = .error .InvalidRequest ∧
      applyOp initialState (.callback 3 samplePayload true) = initialState :=
  C3_invalid_token initialState 3 samplePayload true rfl

/-- C4: when the callback reaches the proof verification (token mapped,
record unsettled) and verification fails, the operation fails with
`ProofInvalid` and the state — projection, accumulators, seller list,
everything — is exactly what it was before the call. -/
theorem C4_proof_invalid :
    ∀ s reqId results, s.requestToTransactionId reqId ≠ 0 →
      (s.decryptedTransactions (s.requestToTransactionId reqId)).isSettled = false →
      step s (.callback reqId results false) = .error .ProofInvalid ∧
        applyOp s (.callback reqId results false) = s := by
  intro s reqId results h1 h2
  exact ⟨by simp [step, h1, h2], by simp [applyOp, step, h1, h2]⟩

/-- C4 witness: an invalid proof for the pending request on record 1 is
rejected without a state change. -/
theorem C4_witness :
    step (runOps initialState [Op.submit 1 2 3 4 0, Op.requestDecryption 1])
        (.callback 0 samplePayload false) = .error .ProofInvalid ∧
      applyOp (runOps initialState [Op.submit 1 2 3 4 0, Op.requestDecryption 1])
        (.callback 0 samplePayload false) =
        runOps initialState [Op.submit 1 2 3 4 0, Op.requestDecryption 1] :=
  C4_proof_invalid _ 0 samplePayload (by decide) (by decide)

/-- C5: a successful settlement homomorphically adds one encrypted unit to
the accumulator of the seller named in the decoded payload — creating it at
encrypted zero and appending the seller to the seller list when previously
unknown — and leaves every other seller's accumulator unchanged. -/
theorem C5_accumulator :
    ∀ s reqId results pv s1,
      step s (.callback reqId results pv) = .ok s1 →
      (s.encryptedEnergyBySeller (seller0 results) = none →
        s1.encryptedEnergyBySeller (seller0 results) = some 1 ∧
          s1.sellerList = s.sellerList ++ [seller0 results]) ∧
      (∀ v, s.encryptedEnergyBySeller (seller0 results) = some v →
        s1.encryptedEnergyBySeller (seller0 results) = some ((v + 1) % 2 ^ 32) ∧
          s1.sellerList = s.sellerList) ∧
      (∀ k, k ≠ seller0 results →
        s1.encryptedEnergyBySeller k = s.encryptedEnergyBySeller k) := by
  intro s reqId results pv s1 h
  obtain ⟨hs1, hne0, hns, hpv, hlen⟩ := stepCb_ok_inv s reqId results pv s1 h
  subst hs1
  refine ⟨?_, ?_, ?_⟩
  · intro hnone
    constructor
    · simp [settleApply, upd, fheIsInitialized, hnone, fheAdd, fheAsEuint32]
    · simp [settleApply, fheIsInitialized, hnone]
  · intro v hv
    constructor
    · simp only [settleApply, upd, fheIsInitialized, hv, Option.isSome_some,
        if_true, fheAdd, fheAsEuint32, if_pos rfl]
      have h1m : 1 % 2 ^ 32 = 1 := by norm_num
      rw [h1m]
    · simp [settleApply, fheIsInitialized, hv]
  · intro k hk
    simp [settleApply, upd, hk]

/-- C5 witness: settling record 1 for previously-unknown seller "alice"
creates the accumulator at encrypted 0 + 1 and appends "alice". -/
theorem C5_witness :
    (settleApply (runOps initialState [Op.submit 1 2 3 4 0, Op.requestDecryption 1])
        0 samplePayload).encryptedEnergyBySeller (seller0 samplePayload) = some 1 ∧
      (settleApply (runOps initialState
          [Op.submit 1 2 3 4 0, Op.requestDecryption 1])
        0 samplePayload).sellerList =
        (runOps initialState
          [Op.submit 1 2 3 4 0, Op.requestDecryption 1]).sellerList
          ++ [seller0 samplePayload] :=
  (C5_accumulator (runOps initialState [Op.submit 1 2 3 4 0, Op.requestDecryption 1])
    0 samplePayload true
    (settleApply (runOps initialState [Op.submit 1 2 3 4 0, Op.requestDecryption 1])
      0 samplePayload) rfl).1 rfl

example :
    (runOps initialState
      [Op.submit 7 8 9 10 0, Op.requestDecryption 1,
       Op.callback 0 samplePayload true]).sellerList = ["alice"] := by decide

example :
    getEncryptedEnergyBySeller
      (runOps initialState
        [Op.submit 7 8 9 10 0, Op.requestDecryption 1,
         Op.callback 0 samplePayload true]) "alice" = some 1 := by decide

/-- C6: along any trace from deployment the identifiers assigned by the N
submit calls are exactly 1, 2, ..., N in call order (no gaps, no repeats),
and each submit stores the fresh empty unsettled projection and the
encrypted record under the newly assigned identifier. -/
theorem C6_dense_ids :
    (∀ ops, assignedIds initialState ops = List.range' 1 (numSubmits ops))
    ∧ (∀ s sid bid amount price ts,
        (applyOp s (.submit sid bid amount price ts)).transactionCount =
          s.transactionCount + 1 ∧
        (applyOp s (.submit sid bid amount price ts)).decryptedTransactions
          (s.transactionCount + 1) = emptyDecrypted ∧
        (applyOp s (.submit sid bid amount price ts)).encryptedTransactions
          (s.transactionCount + 1) =
          ⟨s.transactionCount + 1, sid, bid, amount, price, ts⟩) := by
  constructor
  · intro ops
    have h := assignedIds_eq ops initialState
    simpa [initialState] using h
  · intro s sid bid amount price ts
    refine ⟨?_, ?_, ?_⟩ <;> simp [applyOp_submit, submitApply, upd]

/-- C7: in every reachable state, a seller has an accumulator entry exactly
when it is in the enumerated seller list, and it is in that list exactly
when some successful settlement in the trace wrote it into a settled
projection. -/
theorem C7_seller_set :
    ∀ ops k,
      (((runOps initialState ops).encryptedEnergyBySeller k).isSome = true ↔
        k ∈ (runOps initialState ops).sellerList) ∧
      (k ∈ (runOps initialState ops).sellerList ↔
        k ∈ settledSellers initialState ops) := by
  intro ops k
  have hinv : ∀ k0, (initialState.encryptedEnergyBySeller k0).isSome = true ↔
      k0 ∈ initialState.sellerList := by
    intro k0; simp [initialState]
  refine ⟨accList_inv_runOps ops initialState hinv k, ?_⟩
  have h := sellerList_hist ops initialState hinv k
  simpa [initialState] using h

/-- C8 counterexample: the claim fails as stated.  Identifier 5 was never
assigned (`transactionCount = 0`), yet after a settlement request on the
nonexistent record 5 and a valid callback, `getDecryptedTransaction(5)` is
a fully populated settled projection, not the all-empty default. -/
theorem C8_counterexample :
    (runOps initialState
        [Op.requestDecryption 5, Op.callback 0 samplePayload true]).transactionCount
      = 0
    ∧ getDecryptedTransaction
        (runOps initialState
          [Op.requestDecryption 5, Op.callback 0 samplePayload true]) 5
        = ("alice", "bob", "10", "500", true) := ⟨rfl, by decide⟩

/-- C8 (amended): `getDecryptedTransaction` is total — it returns the five
fields of the stored projection for every identifier and never fails — and
for an identifier that was never assigned by submit and never targeted by a
successful settlement callback it returns the all-empty, unsettled default
projection (the same value a freshly submitted record has). -/
theorem C8_amended :
    (∀ s txId, getDecryptedTransaction s txId =
        ((s.decryptedTransactions txId).sellerId,
         (s.decryptedTransactions txId).buyerId,
         (s.decryptedTransactions txId).energyAmount,
         (s.decryptedTransactions txId).price,
         (s.decryptedTransactions txId).isSettled))
    ∧ (∀ ops id, (runOps initialState ops).transactionCount < id →
        id ∉ settledIds initialState ops →
        getDecryptedTransaction (runOps initialState ops) id =
          ("", "", "", "", false)) := by
  constructor
  · intro s txId; rfl
  · intro ops id hgt hnot
    have h := proj_preserved ops initialState id hgt hnot
    have h2 : getDecryptedTransaction (runOps initialState ops) id =
        getDecryptedTransaction initialState id := by
      simp [getDecryptedTransaction, h]
    rw [h2]
    rfl

/-- C8 witness: after one submit, identifier 2 is unassigned and untouched,
so its projection reads as the default. -/
theorem C8_witness :
    ((runOps initialState [Op.submit 1 2 3 4 0]).transactionCount < 2 ∧
        2 ∉ settledIds initialState [Op.submit 1 2 3 4 0]) ∧
      getDecryptedTransaction (runOps initialState [Op.submit 1 2 3 4 0]) 2 =
        ("", "", "", "", false) :=
  ⟨⟨by decide, by decide⟩,
    C8_amended.2 [Op.submit 1 2 3 4 0] 2 (by decide) (by decide)⟩

/-- C9 counterexample: the claim fails as stated.  Token 0 is issued for the
nonexistent record 1 and its callback completes successfully; after a submit
assigns identifier 1 (resetting the projection), replaying the identical
callback for the already-consumed token 0 is not rejected at all — it
succeeds a second time. -/
theorem C9_counterexample :
    (step (runOps initialState [Op.requestDecryption 1])
        (Op.callback 0 samplePayload true)).isOk = true
    ∧ (step (runOps initialState
          [Op.requestDecryption 1, Op.callback 0 samplePayload true,
           Op.submit 1 2 3 4 0])
        (Op.callback 0 samplePayload true)).isOk = true := ⟨by decide, by decide⟩

/-- C9 (amended): a successful callback never removes pending-request
entries (the whole map is unchanged, so the consumed token still resolves to
its nonzero record); a callback on any mapped token can never fail with
`InvalidRequest`; and while the record a token resolves to is still settled,
replaying the callback fails with `AlreadySettled`.  The rejection guarantee
lapses only for records that were settled before being assigned and whose
projection a later submit reset. -/
theorem C9_amended :
    (∀ s reqId results pv s1, step s (.callback reqId results pv) = .ok s1 →
        s1.requestToTransactionId = s.requestToTransactionId ∧
          s.requestToTransactionId reqId ≠ 0)
    ∧ (∀ s reqId results pv, s.requestToTransactionId reqId ≠ 0 →
        step s (.callback reqId results pv) ≠ .error .InvalidRequest)
    ∧ (∀ s reqId results pv,
        s.requestToTransactionId reqId ≠ 0 →
        (s.decryptedTransactions (s.requestToTransactionId reqId)).isSettled = true →
        step s (.callback reqId results pv) = .error .AlreadySettled) := by
  refine ⟨?_, ?_, ?_⟩
  · intro s reqId results pv s1 h
    obtain ⟨hs1, hne0, _, _, _⟩ := stepCb_ok_inv s reqId results pv s1 h
    subst hs1
    exact ⟨by simp [settleApply], hne0⟩
  · intro s reqId results pv h
    by_cases h2 : (s.decryptedTransactions (s.requestToTransactionId reqId)).isSettled
    · simp [step, h, h2]
    · by_cases h3 : pv = false
      · simp [step, h, h2, h3]
      · by_cases h4 : results.length < 4 <;> simp [step, h, h2, h3, h4]
  · intro s reqId results pv h hset
    simp [step, h, hset]

/-- C9 witness: record 1 is submitted, requested and settled; the consumed
token 0 still maps to record 1, and replaying its callback is rejected with
`AlreadySettled`, not `InvalidRequest`. -/
theorem C9_witness :
    ((settleApply (runOps initialState
          [Op.submit 1 2 3 4 0, Op.requestDecryption 1]) 0
          samplePayload).requestToTransactionId =
        (runOps initialState
          [Op.submit 1 2 3 4 0, Op.requestDecryption 1]).requestToTransactionId ∧
      (runOps initialState
        [Op.submit 1 2 3 4 0, Op.requestDecryption 1]).requestToTransactionId 0 ≠ 0)
    ∧ step (runOps initialState
        [Op.submit 1 2 3 4 0, Op.requestDecryption 1,
         Op.callback 0 samplePayload true])
        (.callback 0 samplePayload true) = .error .AlreadySettled :=
  ⟨C9_amended.1 (runOps initialState [Op.submit 1 2 3 4 0, Op.requestDecryption 1])
      0 samplePayload true
      (settleApply (runOps initialState
        [Op.submit 1 2 3 4 0, Op.requestDecryption 1]) 0 samplePayload) rfl,
    C9_amended.2.2 _ 0 samplePayload true (by decide) (by decide)⟩

/-- C10 counterexample: the claim fails as stated.  In the deployment state
`requestTransactionDecryption(0)` succeeds (identifier 0 can never be
assigned, but existence is not checked) and registers the record identifier
0 — a zero value stored in the pending-request map of a reachable state —
after which the callback misclassifies the registered token 0 as unknown. -/
theorem C10_counterexample :
    (step initialState (Op.requestDecryption 0)).isOk = true ∧
      regEvents initialState [Op.requestDecryption 0] = [(0, 0)] ∧
      step (runOps initialState [Op.requestDecryption 0])
        (Op.callback 0 samplePayload true) = .error .InvalidRequest :=
  ⟨rfl, rfl, rfl⟩

/-- C10 (amended): record identifiers assigned by submit are at least 1;
every nonzero value in the pending-request map of a reachable state was
stored by a successful settlement request registering exactly that token and
identifier; and the callback rejects any token mapping to 0 with
`InvalidRequest`.  The zero default therefore distinguishes unknown tokens
from tokens registered for assignable identifiers — but not from a token
registered by `requestTransactionDecryption(0)`, which stores the value 0. -/
theorem C10_amended :
    (∀ ops, ∀ id ∈ assignedIds initialState ops, 1 ≤ id)
    ∧ (∀ ops t0, (runOps initialState ops).requestToTransactionId t0 ≠ 0 →
        (t0, (runOps initialState ops).requestToTransactionId t0) ∈
          regEvents initialState ops)
    ∧ (∀ s reqId results pv, s.requestToTransactionId reqId = 0 →
        step s (.callback reqId results pv) = .error .InvalidRequest) := by
  refine ⟨?_, ?_, ?_⟩
  · intro ops id hid
    rw [assignedIds_eq] at hid
    exact (List.mem_range'_1.mp hid).1
  · intro ops t0 h
    rcases map_reg_inv ops initialState t0 with h0 | h0
    · rw [h0] at h
      exact absurd rfl h
    · exact h0
  · intro s reqId results pv h
    simp [step, h]

/-- C10 witness: identifier 1 assigned by the first submit is at least 1;
the registered token 0 maps to the nonzero identifier 1 and that
registration is in the trace history; an unmapped token is rejected. -/
theorem C10_witness :
    1 ≤ (1 : Nat) ∧
      (0, (runOps initialState
          [Op.submit 1 2 3 4 0, Op.requestDecryption 1]).requestToTransactionId 0) ∈
        regEvents initialState [Op.submit 1 2 3 4 0, Op.requestDecryption 1] ∧
      step initialState (.callback 7 samplePayload true) = .error .InvalidRequest :=
  ⟨C10_amended.1 [Op.submit 1 2 3 4 0] 1 (by decide),
    C10_amended.2.1 [Op.submit 1 2 3 4 0, Op.requestDecryption 1] 0 (by decide),
    C10_amended.2.2 initialState 7 samplePayload true rfl⟩

end SolarTrading
